import Mathlib

/-!
Shallow embedding of the NER workshop's entity-table pipeline
(`src/unnamed/part_000`, cells at lines 333-399, and the notebook variant in
`src/NER_workshop.ipynb`).

The pipeline: for each document, the spaCy tagger (external collaborator)
emits an ordered list of spans, each with a `text` and a `label_`; the code
accumulates one dictionary per document holding the file name and two
parallel lists, builds a DataFrame, sorts it, explodes the list columns to
one row per entity (pandas turns an empty list into a single NaN row), and
filters rows by entity label with an exact string equality mask.
-/

namespace NER

/-- One span emitted by the tagger: spaCy's `ent.text` and `ent.label_`. -/
structure TaggedSpan where
  text : String
  label : String
deriving Repr, DecidableEq

/-- One input document: its stable key (`filepath` in the source) together
with the tagger's ordered emission `doc.ents` on its text.  The tagger is an
opaque external collaborator, so its output is part of the input here. -/
structure Document where
  file_name : String
  ents : List TaggedSpan
deriving Repr, DecidableEq

/-- The per-document dictionary built by the accumulation loop
(part_000 lines 348-360): `{'File_name': filepath, 'Entity_type': [...],
'Entity_identified': [...]}`. -/
structure EntRecord where
  file_name : String
  entity_type : List String
  entity_identified : List String
deriving Repr, DecidableEq

/-- One row of the exploded DataFrame.  `none` models pandas `NaN`, which
`pd.Series.explode` produces for an empty list cell. -/
structure FlatRow where
  file_name : String
  entity_type : Option String
  entity_identified : Option String
deriving Repr, DecidableEq

/-- The dictionary the loop body appends for one document:
`ent_dict = {'File_name': filepath, 'Entity_type': entity_type,
'Entity_identified': entity_identified}` where the two lists are built by
appending `ent.label_` resp. `ent.text` over `doc.ents` in order. -/
def recordOf (d : Document) : EntRecord :=
  { file_name := d.file_name
    entity_type := d.ents.map TaggedSpan.label
    entity_identified := d.ents.map TaggedSpan.text }

/-- The accumulation loop (part_000 lines 348-360): `all_entities = []`,
then for each filepath in input order, append `ent_dict`. -/
def all_entities (articles : List Document) : List EntRecord :=
  articles.foldl (fun acc d => acc ++ [recordOf d]) []

/-- Lexicographic comparison of character lists by code point, the order
Python (and hence pandas) uses to compare the file-name strings. -/
def strLeAux : List Char → List Char → Bool
  | [], _ => true
  | _ :: _, [] => false
  | a :: as, b :: bs =>
    if a.toNat < b.toNat then true
    else if b.toNat < a.toNat then false
    else strLeAux as bs

/-- String comparison by code points, as Python compares `str` keys. -/
def strLe (s t : String) : Bool := strLeAux s.data t.data

/-- Insertion into a sorted list, placing `a` before strictly greater keys
and after equal ones already present (stable). -/
def insertLe {α : Type} (le : α → α → Bool) (a : α) : List α → List α
  | [] => [a]
  | x :: xs => if le a x then a :: x :: xs else x :: insertLe le a xs

/-- Stable insertion sort modelling `DataFrame.sort_values(..., ascending=True)`.
On the key-distinct inputs of this pipeline every correct sort agrees with it. -/
def sort_values {α : Type} (le : α → α → Bool) : List α → List α
  | [] => []
  | x :: xs => insertLe le x (sort_values le xs)

/-- Comparator for `sort_values(by='File_name', ascending=True)`. -/
def fileLe (a b : EntRecord) : Bool := strLe a.file_name b.file_name

/-- part_000 lines 367-368: `df_NER = pd.DataFrame(all_entities)` followed by
`df_NER.sort_values(by='File_name', ascending=True)`. -/
def df_NER (articles : List Document) : List EntRecord :=
  sort_values fileLe (all_entities articles)

/-- `pd.Series.explode` on one list cell: a non-empty list becomes its
elements; an empty list becomes a single `NaN` (pandas documented behavior). -/
def explodeCell (xs : List String) : List (Option String) :=
  match xs with
  | [] => [none]
  | x :: xs => (x :: xs).map some

/-- The rows one record contributes to
`df_NER.set_index(['File_name']).apply(pd.Series.explode).reset_index()`:
each list column is exploded and the results are re-aligned positionally on
the replicated index (well defined here because the two lists of every
record built by the pipeline have equal length). -/
def explodeRecord (r : EntRecord) : List FlatRow :=
  List.zipWith (fun c t => ⟨r.file_name, c, t⟩)
    (explodeCell r.entity_type) (explodeCell r.entity_identified)

/-- part_000 lines 376-377: the whole-frame explode, concatenating each
record's rows in record order. -/
def applyExplode (records : List EntRecord) : List FlatRow :=
  records.flatMap explodeRecord

/-- The final flattened table of part_000: accumulate, sort by file name,
explode. -/
def flattened (articles : List Document) : List FlatRow :=
  applyExplode (df_NER articles)

/-- part_000 lines 385/392/399: `df_NER[df_NER['Entity_type'] == c]` — the
boolean equality mask keeps the rows whose `Entity_type` equals `c` (a `NaN`
cell compares unequal to every string, as in pandas). -/
def filterByCategory (rows : List FlatRow) (c : String) : List FlatRow :=
  rows.filter (fun r => r.entity_type == some c)

/-- A flattened row viewed as a trivial record: a scalar cell is a
one-element list, and a `NaN` cell is the empty contribution, matching how
`pd.Series.explode` leaves scalars (including `NaN`) unchanged. -/
def rowAsRecord (r : FlatRow) : EntRecord :=
  { file_name := r.file_name
    entity_type := r.entity_type.toList
    entity_identified := r.entity_identified.toList }

/-- Re-running the explode phase on an already-flattened table, each row
treated as a trivial one-element record. -/
def reflatten (rows : List FlatRow) : List FlatRow :=
  applyExplode (rows.map rowAsRecord)

/-- One iteration of the single-document cell (part_000 lines 333-341):
append `named_entity.label_` and `named_entity.text` to the two shared
lists, then append one more `entity_dict` to `entities`.  The state is
(`entity_type`, `entity_identified`, number of dicts appended so far); the
appended dicts need no further data because each holds references to the
same two shared lists. -/
def cellStep (st : List String × List String × Nat) (e : TaggedSpan) :
    List String × List String × Nat :=
  (st.1 ++ [e.label], st.2.1 ++ [e.text], st.2.2 + 1)

/-- Observable value of the `entities` list printed at the end of the
single-document cell: every appended `entity_dict` aliases the two shared
lists, so each element prints as the pair of final lists. -/
def entitiesCell (ents : List TaggedSpan) : List (List String × List String) :=
  let st := ents.foldl cellStep ([], [], 0)
  List.replicate st.2.2 (st.1, st.2.1)

/-- The notebook's per-document dictionary (cell fa5f06da of
`src/NER_workshop.ipynb`): `{'Doc_index': idx, 'Entity_type': [...],
'Entity_identified': [...]}` with `idx` from `enumerate`. -/
structure NbRecord where
  doc_index : Nat
  entity_type : List String
  entity_identified : List String
deriving Repr, DecidableEq

/-- Notebook accumulation loop: `for idx, doc in enumerate(df_articles['processed_doc'])`,
appending one dictionary per document with `Doc_index` equal to the
enumeration index.  A document is represented by its tagger output. -/
def all_entities_nb (docs : List (List TaggedSpan)) : List NbRecord :=
  docs.enum.map fun p =>
    { doc_index := p.1
      entity_type := p.2.map TaggedSpan.label
      entity_identified := p.2.map TaggedSpan.text }

/-- Comparator for the notebook's `sort_values(by='Doc_index', ascending=True)`. -/
def idxLe (a b : NbRecord) : Bool := decide (a.doc_index ≤ b.doc_index)

/-- Notebook cell b613fbca: `df_NER = pd.DataFrame(all_entities)` then
`df_NER.sort_values(by='Doc_index', ascending=True)`. -/
def df_NER_nb (docs : List (List TaggedSpan)) : List NbRecord :=
  sort_values idxLe (all_entities_nb docs)

/-- Concrete scenario A of the spec: two documents, the second yielding no
spans. -/
def doc1 : Document :=
  ⟨"doc1", [⟨"Apple", "ORG"⟩, ⟨"Jane", "PERSON"⟩, ⟨"Paris", "GPE"⟩]⟩

/-- The zero-entity document of scenario A. -/
def doc2 : Document := ⟨"doc2", []⟩

/-- The scenario-A input collection. -/
def scenarioA : List Document := [doc1, doc2]

/-- A two-document input whose keys are in strictly descending order,
exercising the `sort_values(by='File_name')` step. -/
def scenarioDesc : List Document :=
  [⟨"b", [⟨"Paris", "GPE"⟩]⟩, ⟨"a", [⟨"Jane", "PERSON"⟩]⟩]

/-! Helper lemmas about the embedded operations. -/

theorem foldl_append_map {α β : Type} (f : α → β) :
    ∀ (l : List α) (init : List β),
      l.foldl (fun acc d => acc ++ [f d]) init = init ++ l.map f
  | [], init => by simp
  | a :: l, init => by
    simp only [List.foldl_cons, List.map_cons]
    rw [foldl_append_map f l (init ++ [f a])]
    simp

theorem all_entities_eq (articles : List Document) :
    all_entities articles = articles.map recordOf := by
  simpa using foldl_append_map recordOf articles []

theorem insertLe_perm {α : Type} (le : α → α → Bool) (a : α) :
    ∀ l : List α, (insertLe le a l).Perm (a :: l)
  | [] => List.Perm.refl _
  | x :: xs => by
    simp only [insertLe]
    split
    · exact List.Perm.refl _
    · exact ((insertLe_perm le a xs).cons x).trans (List.Perm.swap a x xs)

theorem sort_values_perm {α : Type} (le : α → α → Bool) :
    ∀ l : List α, (sort_values le l).Perm l
  | [] => List.Perm.refl _
  | x :: xs => by
    simp only [sort_values]
    exact (insertLe_perm le x (sort_values le xs)).trans
      ((sort_values_perm le xs).cons x)

theorem mem_insertLe {α : Type} (le : α → α → Bool) (a b : α) (l : List α) :
    b ∈ insertLe le a l ↔ b = a ∨ b ∈ l := by
  rw [(insertLe_perm le a l).mem_iff]
  simp

theorem strLeAux_refl : ∀ as : List Char, strLeAux as as = true
  | [] => rfl
  | a :: as => by
    simp only [strLeAux, Nat.lt_irrefl, if_false]
    exact strLeAux_refl as

theorem strLeAux_total : ∀ as bs, strLeAux as bs = true ∨ strLeAux bs as = true
  | [], _ => Or.inl rfl
  | _ :: _, [] => Or.inr rfl
  | a :: as, b :: bs => by
    simp only [strLeAux]
    rcases Nat.lt_trichotomy a.toNat b.toNat with h | h | h
    · left
      rw [if_pos h]
    · rw [if_neg (by omega), if_neg (by omega), if_neg (by omega), if_neg (by omega)]
      exact strLeAux_total as bs
    · right
      rw [if_pos h]

theorem strLeAux_trans :
    ∀ as bs cs, strLeAux as bs = true → strLeAux bs cs = true → strLeAux as cs = true
  | [], _, _, _, _ => rfl
  | _ :: _, [], _, h1, _ => by simp [strLeAux] at h1
  | _ :: _, _ :: _, [], _, h2 => by simp [strLeAux] at h2
  | a :: as, b :: bs, c :: cs, h1, h2 => by
    simp only [strLeAux] at h1 h2 ⊢
    rcases Nat.lt_trichotomy a.toNat b.toNat with hab | hab | hab
    · rcases Nat.lt_trichotomy b.toNat c.toNat with hbc | hbc | hbc
      · rw [if_pos (by omega)]
      · rw [if_pos (by omega)]
      · rw [if_neg (by omega), if_pos hbc] at h2
        exact absurd h2 (by simp)
    · rcases Nat.lt_trichotomy b.toNat c.toNat with hbc | hbc | hbc
      · rw [if_pos (by omega)]
      · rw [if_neg (by omega), if_neg (by omega)] at h1 h2 ⊢
        exact strLeAux_trans as bs cs h1 h2
      · rw [if_neg (by omega), if_pos hbc] at h2
        exact absurd h2 (by simp)
    · rw [if_neg (by omega), if_pos hab] at h1
      exact absurd h1 (by simp)

theorem strLe_refl (s : String) : strLe s s = true := strLeAux_refl s.data

theorem strLe_total (s t : String) : strLe s t = true ∨ strLe t s = true :=
  strLeAux_total s.data t.data

theorem strLe_trans (s t u : String) (h1 : strLe s t = true) (h2 : strLe t u = true) :
    strLe s u = true :=
  strLeAux_trans s.data t.data u.data h1 h2

theorem fileLe_total (a b : EntRecord) : fileLe a b = true ∨ fileLe b a = true :=
  strLe_total a.file_name b.file_name

theorem fileLe_trans (a b c : EntRecord) (h1 : fileLe a b = true)
    (h2 : fileLe b c = true) : fileLe a c = true :=
  strLe_trans a.file_name b.file_name c.file_name h1 h2

theorem pairwise_insertLe {α : Type} (le : α → α → Bool)
    (htot : ∀ a b, le a b = true ∨ le b a = true)
    (htrans : ∀ a b c, le a b = true → le b c = true → le a c = true)
    (a : α) :
    ∀ l : List α, l.Pairwise (fun x y => le x y = true) →
      (insertLe le a l).Pairwise (fun x y => le x y = true)
  | [], _ => by simp [insertLe]
  | x :: xs, h => by
    simp only [insertLe]
    split
    case isTrue hax =>
      refine List.Pairwise.cons ?_ h
      intro y hy
      rcases List.mem_cons.mp hy with rfl | hy
      · exact hax
      · exact htrans a x y hax (List.rel_of_pairwise_cons h hy)
    case isFalse hax =>
      refine List.Pairwise.cons ?_ (pairwise_insertLe le htot htrans a xs h.of_cons)
      intro y hy
      rcases (mem_insertLe le a y xs).mp hy with rfl | hy
      · rcases htot y x with h1 | h1
        · exact absurd h1 hax
        · exact h1
      · exact List.rel_of_pairwise_cons h hy

theorem pairwise_sort_values {α : Type} (le : α → α → Bool)
    (htot : ∀ a b, le a b = true ∨ le b a = true)
    (htrans : ∀ a b c, le a b = true → le b c = true → le a c = true) :
    ∀ l : List α, (sort_values le l).Pairwise (fun x y => le x y = true)
  | [] => List.Pairwise.nil
  | x :: xs => by
    simp only [sort_values]
    exact pairwise_insertLe le htot htrans x _
      (pairwise_sort_values le htot htrans xs)

theorem sort_values_of_pairwise {α : Type} (le : α → α → Bool) :
    ∀ l : List α, l.Pairwise (fun x y => le x y = true) → sort_values le l = l
  | [], _ => rfl
  | x :: xs, h => by
    simp only [sort_values]
    rw [sort_values_of_pairwise le xs h.of_cons]
    cases xs with
    | nil => rfl
    | cons y ys =>
      simp only [insertLe]
      rw [if_pos (List.rel_of_pairwise_cons h (List.mem_cons_self y ys))]

theorem explodeCell_length (xs : List String) :
    (explodeCell xs).length = max 1 xs.length := by
  cases xs with
  | nil => rfl
  | cons x xs =>
    simp only [explodeCell, List.length_map, List.length_cons]
    omega

theorem record_lengths (articles : List Document) (r : EntRecord)
    (h : r ∈ all_entities articles) :
    r.entity_type.length = r.entity_identified.length := by
  rw [all_entities_eq] at h
  rcases List.mem_map.mp h with ⟨d, _, rfl⟩
  simp [recordOf]

theorem df_NER_mem_iff (articles : List Document) (r : EntRecord) :
    r ∈ df_NER articles ↔ r ∈ all_entities articles :=
  (sort_values_perm fileLe (all_entities articles)).mem_iff

theorem explodeRecord_length (r : EntRecord)
    (h : r.entity_type.length = r.entity_identified.length) :
    (explodeRecord r).length = max 1 r.entity_type.length := by
  simp only [explodeRecord, List.length_zipWith, explodeCell_length, h]
  omega

theorem file_name_of_mem_zip (k : String) :
    ∀ (cs ts : List (Option String)) (row : FlatRow),
      row ∈ List.zipWith (fun c t => FlatRow.mk k c t) cs ts → row.file_name = k
  | [], _, _, h => by simp at h
  | _ :: _, [], _, h => by simp at h
  | c :: cs, t :: ts, row, h => by
    simp only [List.zipWith_cons_cons] at h
    rcases List.mem_cons.mp h with rfl | h
    · rfl
    · exact file_name_of_mem_zip k cs ts row h

theorem file_name_of_mem_explodeRecord (r : EntRecord) (row : FlatRow)
    (h : row ∈ explodeRecord r) : row.file_name = r.file_name :=
  file_name_of_mem_zip r.file_name _ _ row h

theorem map_type_zip (k : String) :
    ∀ cs ts : List (Option String), cs.length = ts.length →
      (List.zipWith (fun c t => FlatRow.mk k c t) cs ts).map FlatRow.entity_type = cs
  | [], [], _ => rfl
  | [], _ :: _, h => by simp at h
  | _ :: _, [], h => by simp at h
  | c :: cs, t :: ts, h => by
    simp only [List.zipWith_cons_cons, List.map_cons]
    rw [map_type_zip k cs ts (by simpa using h)]

theorem map_id_zip (k : String) :
    ∀ cs ts : List (Option String), cs.length = ts.length →
      (List.zipWith (fun c t => FlatRow.mk k c t) cs ts).map FlatRow.entity_identified = ts
  | [], [], _ => rfl
  | [], _ :: _, h => by simp at h
  | _ :: _, [], h => by simp at h
  | c :: cs, t :: ts, h => by
    simp only [List.zipWith_cons_cons, List.map_cons]
    rw [map_id_zip k cs ts (by simpa using h)]

theorem explodeCell_length_eq (r : EntRecord)
    (h : r.entity_type.length = r.entity_identified.length) :
    (explodeCell r.entity_type).length = (explodeCell r.entity_identified).length := by
  rw [explodeCell_length, explodeCell_length, h]

theorem explodeRecord_map_type (r : EntRecord)
    (h : r.entity_type.length = r.entity_identified.length) :
    (explodeRecord r).map FlatRow.entity_type = explodeCell r.entity_type :=
  map_type_zip r.file_name _ _ (explodeCell_length_eq r h)

theorem explodeRecord_map_id (r : EntRecord)
    (h : r.entity_type.length = r.entity_identified.length) :
    (explodeRecord r).map FlatRow.entity_identified = explodeCell r.entity_identified :=
  map_id_zip r.file_name _ _ (explodeCell_length_eq r h)

theorem pairwise_keys_flatMap (recs : List EntRecord)
    (h : recs.Pairwise (fun a b => fileLe a b = true)) :
    ((recs.flatMap explodeRecord).map FlatRow.file_name).Pairwise
      (fun a b => strLe a b = true) := by
  rw [List.pairwise_map]
  induction recs with
  | nil => simp
  | cons r rs ih =>
    rw [List.flatMap_cons, List.pairwise_append]
    refine ⟨?_, ih h.of_cons, ?_⟩
    · apply List.pairwise_of_forall_mem_list
      intro a ha b hb
      rw [file_name_of_mem_explodeRecord r a ha, file_name_of_mem_explodeRecord r b hb]
      exact strLe_refl _
    · intro a ha b hb
      rcases List.mem_flatMap.mp hb with ⟨r2, hr2, hb2⟩
      rw [file_name_of_mem_explodeRecord r a ha,
        file_name_of_mem_explodeRecord r2 b hb2]
      exact List.rel_of_pairwise_cons h hr2

theorem filter_flatMap {α β : Type} (l : List α) (f : α → List β) (p : β → Bool) :
    (l.flatMap f).filter p = l.flatMap fun a => (f a).filter p := by
  induction l with
  | nil => rfl
  | cons a l ih => simp only [List.flatMap_cons, List.filter_append, ih]

theorem explodeRecord_filter_self (r : EntRecord) (k : String) (h : r.file_name = k) :
    (explodeRecord r).filter (fun row => row.file_name == k) = explodeRecord r := by
  apply List.filter_eq_self.mpr
  intro row hrow
  simp [file_name_of_mem_explodeRecord r row hrow, h]

theorem explodeRecord_filter_ne (r : EntRecord) (k : String) (h : r.file_name ≠ k) :
    (explodeRecord r).filter (fun row => row.file_name == k) = [] := by
  apply List.filter_eq_nil_iff.mpr
  intro row hrow
  simp [file_name_of_mem_explodeRecord r row hrow, h]

theorem flatMap_single_key (k : String) (target : EntRecord) :
    ∀ l : List EntRecord,
      target ∈ l → target.file_name = k →
      (∀ r ∈ l, r.file_name = k → r = target) →
      l.countP (fun r => r.file_name == k) = 1 →
      (l.flatMap fun r => (explodeRecord r).filter (fun row => row.file_name == k))
        = explodeRecord target
  | [], hmem, _, _, _ => absurd hmem (List.not_mem_nil target)
  | r :: rs, hmem, hk, huniq, hcount => by
    rw [List.flatMap_cons]
    by_cases hr : r.file_name = k
    · have hrt : r = target := huniq r (List.mem_cons_self r rs) hr
      have hc0 : rs.countP (fun r => r.file_name == k) = 0 := by
        rw [List.countP_cons_of_pos _ rs (by simp [hr])] at hcount
        omega
      have hrest :
          (rs.flatMap fun r => (explodeRecord r).filter (fun row => row.file_name == k))
            = [] := by
        apply List.flatMap_eq_nil_iff.mpr
        intro r2 hr2
        exact explodeRecord_filter_ne r2 k
          (by simpa using List.countP_eq_zero.mp hc0 r2 hr2)
      rw [hrest, explodeRecord_filter_self r k hr, hrt, List.append_nil]
    · have hmem2 : target ∈ rs := by
        rcases List.mem_cons.mp hmem with rfl | hmem2
        · exact absurd hk hr
        · exact hmem2
      have hcount2 : rs.countP (fun r => r.file_name == k) = 1 := by
        rwa [List.countP_cons_of_neg _ rs (by simp [hr])] at hcount
      rw [explodeRecord_filter_ne r k hr, List.nil_append]
      exact flatMap_single_key k target rs hmem2 hk
        (fun r2 hr2 => huniq r2 (List.mem_cons_of_mem r hr2)) hcount2

theorem countP_key_eq_one :
    ∀ (articles : List Document) (d : Document), d ∈ articles →
      articles.Pairwise (fun a b => a.file_name ≠ b.file_name) →
      articles.countP (fun a => a.file_name == d.file_name) = 1
  | [], d, hd, _ => absurd hd (List.not_mem_nil d)
  | a :: l, d, hd, hdist => by
    rcases List.mem_cons.mp hd with rfl | hd2
    · rw [List.countP_cons_of_pos _ l (by simp), List.countP_eq_zero.mpr]
      intro b hb
      simpa using (List.rel_of_pairwise_cons hdist hb).symm
    · rw [List.countP_cons_of_neg _ l
        (by simpa using List.rel_of_pairwise_cons hdist hd2)]
      exact countP_key_eq_one l d hd2 hdist.of_cons

theorem doc_eq_of_key_eq (articles : List Document)
    (hdist : articles.Pairwise (fun a b => a.file_name ≠ b.file_name))
    (d d' : Document) (hd : d ∈ articles) (hd' : d' ∈ articles)
    (h : d.file_name = d'.file_name) : d = d' := by
  by_contra hne
  exact (hdist.forall (fun a b hab => (Ne.symm hab)) hd hd' hne) h

theorem cell_foldl :
    ∀ (ents : List TaggedSpan) (ts ids : List String) (n : Nat),
      ents.foldl cellStep (ts, ids, n) =
        (ts ++ ents.map TaggedSpan.label, ids ++ ents.map TaggedSpan.text,
          n + ents.length)
  | [], ts, ids, n => by simp
  | e :: ents, ts, ids, n => by
    simp only [List.foldl_cons, List.map_cons, List.length_cons]
    rw [show cellStep (ts, ids, n) e = (ts ++ [e.label], ids ++ [e.text], n + 1) from rfl]
    rw [cell_foldl ents (ts ++ [e.label]) (ids ++ [e.text]) (n + 1)]
    simp only [List.append_assoc, List.singleton_append]
    have hn : n + 1 + ents.length = n + (ents.length + 1) := by omega
    rw [hn]

/-! Claims. -/

/-- C4: the accumulation loop yields exactly one `EntRecord` per input
document, in input order — the accumulated list is exactly the input list's
image under `recordOf`, so a document whose tagger output is empty still
yields the record with two empty parallel sequences; consequently every
document key occurs among the records exactly as often as among the input
documents (in particular exactly once when its document is unique). -/
theorem C4_one_record_per_document (articles : List Document) :
    all_entities articles = articles.map recordOf ∧
    (∀ k : String,
      (all_entities articles).countP (fun r => r.file_name == k) =
        articles.countP (fun d => d.file_name == k)) ∧
    (∀ d : Document, d.ents = [] →
      recordOf d = { file_name := d.file_name
                     entity_type := []
                     entity_identified := [] }) := by
  refine ⟨all_entities_eq articles, ?_, ?_⟩
  · intro k
    rw [all_entities_eq, List.countP_map]
    rfl
  · intro d hd
    simp [recordOf, hd]

/-- C4 witness: at scenario A the two records are the images of the two
documents, and the zero-span document yields the empty-lists record. -/
theorem C4_witness :
    all_entities scenarioA = scenarioA.map recordOf ∧
    recordOf doc2 = { file_name := "doc2"
                      entity_type := []
                      entity_identified := [] } :=
  ⟨(C4_one_record_per_document scenarioA).1,
    (C4_one_record_per_document scenarioA).2.2 doc2 rfl⟩

/-- C5: every accumulated record's two parallel sequences have equal length
(including the zero-entity case, where both are empty), and they are the
index-aligned projections of some input document's tagger emissions in
emission order. -/
theorem C5_parallel_sequences (articles : List Document) (r : EntRecord)
    (h : r ∈ all_entities articles) :
    r.entity_type.length = r.entity_identified.length ∧
    ∃ d ∈ articles, r.file_name = d.file_name ∧
      r.entity_type = d.ents.map TaggedSpan.label ∧
      r.entity_identified = d.ents.map TaggedSpan.text ∧
      r.entity_type.zip r.entity_identified =
        d.ents.map fun e => (e.label, e.text) := by
  rw [all_entities_eq] at h
  rcases List.mem_map.mp h with ⟨d, hd, rfl⟩
  refine ⟨by simp [recordOf], d, hd, rfl, rfl, rfl, ?_⟩
  simp only [recordOf]
  exact List.zip_map' TaggedSpan.label TaggedSpan.text d.ents

/-- C5 witness: the record of the three-entity scenario-A document is
accumulated and its sequences have equal length. -/
theorem C5_witness :
    (recordOf doc1).entity_type.length = (recordOf doc1).entity_identified.length :=
  (C5_parallel_sequences scenarioA (recordOf doc1) (by decide)).1

/-- C6: the category filter returns exactly the subsequence of rows whose
`Entity_type` equals the target under exact string comparison: the result is
a sublist of the input (original relative order preserved), every kept row
matches, every matching row is kept, the result's length is the number of
matching rows, and an empty input yields an empty result. -/
theorem C6_filter_exact_subsequence (rows : List FlatRow) (c : String) :
    (filterByCategory rows c).Sublist rows ∧
    (∀ r ∈ filterByCategory rows c, r.entity_type = some c) ∧
    (∀ r ∈ rows, r.entity_type = some c → r ∈ filterByCategory rows c) ∧
    (filterByCategory rows c).length =
      rows.countP (fun r => r.entity_type == some c) ∧
    filterByCategory [] c = [] := by
  refine ⟨List.filter_sublist rows, ?_, ?_, ?_, rfl⟩
  · intro r hr
    have h := (List.mem_filter.mp hr).2
    simpa using h
  · intro r hr he
    exact List.mem_filter.mpr ⟨hr, by simp [he]⟩
  · exact (List.countP_eq_length_filter _ _).symm

/-- C6 witness: filtering scenario A's flattened table by "GPE" keeps the
Paris row. -/
theorem C6_witness :
    FlatRow.mk "doc1" (some "GPE") (some "Paris")
      ∈ filterByCategory (flattened scenarioA) "GPE" :=
  (C6_filter_exact_subsequence (flattened scenarioA) "GPE").2.2.1
    (FlatRow.mk "doc1" (some "GPE") (some "Paris")) (by decide) rfl

/-- C7: filtering by a category no row carries is not an error: the filter
is a total function and simply returns the empty list. -/
theorem C7_unknown_category_empty (rows : List FlatRow) (c : String)
    (h : ∀ r ∈ rows, r.entity_type ≠ some c) :
    filterByCategory rows c = [] := by
  apply List.filter_eq_nil_iff.mpr
  intro r hr
  simpa using h r hr

/-- C7 witness: scenario C of the spec — filtering scenario A's flattened
table by "LAW" yields the empty table. -/
theorem C7_witness : filterByCategory (flattened scenarioA) "LAW" = [] :=
  C7_unknown_category_empty (flattened scenarioA) "LAW" (by decide)

/-- C1 counterexample: in scenario A the zero-span document "doc2" does not
vanish from the flattened table — `pd.Series.explode` turns its empty list
cells into a single NaN row, so its key contributes one row, not zero. -/
theorem C1_counterexample :
    ((flattened scenarioA).filter (fun r => r.file_name == "doc2")).length = 1 ∧
    FlatRow.mk "doc2" none none ∈ flattened scenarioA :=
  ⟨by decide, by decide⟩

/-- C1 amended: a document whose tagger output is empty contributes exactly
one row to the flattened output — a row with its key and NaN in both entity
fields — so its document key is present in (not absent from) the flattened
table. -/
theorem C1_zero_span_single_nan_row (articles : List Document) (d : Document)
    (hd : d ∈ articles) (he : d.ents = []) :
    FlatRow.mk d.file_name none none ∈ flattened articles ∧
    explodeRecord (recordOf d) = [FlatRow.mk d.file_name none none] := by
  have hrec : explodeRecord (recordOf d) = [FlatRow.mk d.file_name none none] := by
    simp [recordOf, he, explodeRecord, explodeCell]
  refine ⟨?_, hrec⟩
  have h1 : recordOf d ∈ all_entities articles := by
    rw [all_entities_eq]
    exact List.mem_map_of_mem recordOf hd
  have h2 : recordOf d ∈ df_NER articles := (df_NER_mem_iff articles _).mpr h1
  rw [flattened, applyExplode]
  exact List.mem_flatMap.mpr
    ⟨recordOf d, h2, by rw [hrec]; exact List.mem_singleton_self _⟩

/-- C1 witness: the NaN row of the scenario-A zero-span document. -/
theorem C1_witness : FlatRow.mk "doc2" none none ∈ flattened scenarioA :=
  (C1_zero_span_single_nan_row scenarioA doc2 (by decide) rfl).1

/-- C2 counterexample: in scenario A the total number of entity occurrences
over the accumulated records is 3, but the flattened table has 4 rows (the
zero-span document adds a NaN row), so the claimed cardinality equality
fails. -/
theorem C2_counterexample :
    ((all_entities scenarioA).map fun r => r.entity_type.length).sum = 3 ∧
    (flattened scenarioA).length = 4 :=
  ⟨by decide, by decide⟩

/-- C2 amended: the flattened row count equals the sum over all accumulated
records of `max 1 (number of entities)` — each entity occurrence yields
exactly one row, and each zero-entity record additionally yields exactly one
NaN row, so the claimed law holds exactly when no record is empty. -/
theorem C2_cardinality (articles : List Document) :
    (flattened articles).length =
      ((all_entities articles).map fun r => max 1 r.entity_type.length).sum := by
  rw [flattened, applyExplode, List.length_flatMap]
  have hperm : (df_NER articles).Perm (all_entities articles) :=
    sort_values_perm fileLe (all_entities articles)
  rw [(hperm.map (List.length ∘ explodeRecord)).sum_eq]
  refine congrArg List.sum (List.map_congr_left ?_)
  intro r hr
  exact explodeRecord_length r (record_lengths articles r hr)

/-- C3 counterexample: with document keys supplied in descending order the
pipeline's `sort_values(by='File_name')` reorders the documents before the
explode, so the flattened output's documents ("a" then "b") do not appear in
the input's relative order ("b" then "a"): the rows are re-sorted by
document key. -/
theorem C3_counterexample :
    (flattened scenarioDesc).map FlatRow.file_name = ["a", "b"] ∧
    scenarioDesc.map Document.file_name = ["b", "a"] :=
  ⟨by decide, rfl⟩

/-- C3 amended: the flattened output's documents appear in ascending
file-name order, not input order: the record table is sorted by `File_name`
(a permutation of the accumulated records) before exploding; within each
record the explode step emits the entity fields exactly in tagger-emission
order; and when the document keys are pairwise distinct each document's rows
in the flattened table are exactly its record's exploded rows in emission
order. -/
theorem C3_sorted_not_input_order (articles : List Document) :
    ((flattened articles).map FlatRow.file_name).Pairwise
      (fun a b => strLe a b = true) ∧
    (df_NER articles).Perm (all_entities articles) ∧
    (∀ r ∈ df_NER articles,
      (explodeRecord r).map FlatRow.entity_type = explodeCell r.entity_type ∧
      (explodeRecord r).map FlatRow.entity_identified =
        explodeCell r.entity_identified) ∧
    (articles.Pairwise (fun a b => a.file_name ≠ b.file_name) →
      ∀ d ∈ articles,
        (flattened articles).filter (fun row => row.file_name == d.file_name) =
          explodeRecord (recordOf d)) := by
  have hperm : (df_NER articles).Perm (all_entities articles) :=
    sort_values_perm fileLe (all_entities articles)
  refine ⟨?_, hperm, ?_, ?_⟩
  · exact pairwise_keys_flatMap (df_NER articles)
      (pairwise_sort_values fileLe fileLe_total fileLe_trans (all_entities articles))
  · intro r hr
    have hlen := record_lengths articles r ((df_NER_mem_iff articles r).mp hr)
    exact ⟨explodeRecord_map_type r hlen, explodeRecord_map_id r hlen⟩
  · intro hdist d hd
    rw [flattened, applyExplode, filter_flatMap]
    apply flatMap_single_key d.file_name (recordOf d) (df_NER articles)
    · exact (df_NER_mem_iff articles _).mpr
        (by rw [all_entities_eq]; exact List.mem_map_of_mem recordOf hd)
    · rfl
    · intro r hr hrk
      have hr2 := (df_NER_mem_iff articles r).mp hr
      rw [all_entities_eq] at hr2
      rcases List.mem_map.mp hr2 with ⟨d2, hd2, rfl⟩
      rw [doc_eq_of_key_eq articles hdist d2 d hd2 hd hrk]
    · rw [hperm.countP_eq, all_entities_eq, List.countP_map]
      exact countP_key_eq_one articles d hd hdist

/-- C3 amended witness: on the descending-key input, the rows of document
"b" in the flattened table are exactly its record's exploded rows. -/
theorem C3_witness :
    (flattened scenarioDesc).filter (fun row => row.file_name == "b") =
      explodeRecord (recordOf ⟨"b", [⟨"Paris", "GPE"⟩]⟩) :=
  (C3_sorted_not_input_order scenarioDesc).2.2.2 (by decide)
    ⟨"b", [⟨"Paris", "GPE"⟩]⟩ (by decide)

/-- C8: re-applying the explode phase to an already-flattened table, with
each row viewed as a trivial one-element record (a NaN cell contributing as
pandas leaves it, unchanged), is the identity. -/
theorem C8_reflatten_identity (rows : List FlatRow) : reflatten rows = rows := by
  induction rows with
  | nil => rfl
  | cons r rs ih =>
    rw [reflatten, List.map_cons, applyExplode, List.flatMap_cons]
    have h1 : explodeRecord (rowAsRecord r) = [r] := by
      rcases r with ⟨k, oc, ot⟩
      cases oc <;> cases ot <;> rfl
    rw [h1, List.singleton_append]
    exact congrArg (List.cons r) ih

/-- C9: in the single-document cell the dictionary is appended once per
tagged span while both shared lists keep growing, so the printed `entities`
list has one element per span — not one per document — and every element is
the same pair of full final category and text lists. -/
theorem C9_aliased_dicts (ents : List TaggedSpan) :
    (entitiesCell ents).length = ents.length ∧
    ∀ p ∈ entitiesCell ents,
      p = (ents.map TaggedSpan.label, ents.map TaggedSpan.text) := by
  have h := cell_foldl ents [] [] 0
  constructor
  · rw [entitiesCell, h]
    simp
  · intro p hp
    rw [entitiesCell, h] at hp
    simp only [List.nil_append, Nat.zero_add] at hp
    exact List.eq_of_mem_replicate hp

/-- C9 witness: for the three-span scenario-A document every printed element
is the pair of full final lists. -/
theorem C9_witness :
    (["ORG", "PERSON", "GPE"], ["Apple", "Jane", "Paris"]) =
      (doc1.ents.map TaggedSpan.label, doc1.ents.map TaggedSpan.text) :=
  (C9_aliased_dicts doc1.ents).2
    (["ORG", "PERSON", "GPE"], ["Apple", "Jane", "Paris"]) (by decide)

/-- C10: in the notebook variant `Doc_index` is the enumeration index of the
input documents, so the accumulated records carry indices `0, 1, …` in
order, and sorting them by `Doc_index` ascending is the identity: the record
order after the sort equals the accumulation (input) order. -/
theorem C10_sort_by_doc_index_identity (docs : List (List TaggedSpan)) :
    df_NER_nb docs = all_entities_nb docs ∧
    (all_entities_nb docs).map NbRecord.doc_index = List.range docs.length := by
  have hidx : (all_entities_nb docs).map NbRecord.doc_index =
      List.range docs.length := by
    rw [all_entities_nb, List.map_map]
    exact List.enum_map_fst docs
  refine ⟨?_, hidx⟩
  rw [df_NER_nb]
  apply sort_values_of_pairwise
  have h0 : ((all_entities_nb docs).map NbRecord.doc_index).Pairwise (· < ·) := by
    rw [hidx]
    exact List.pairwise_lt_range docs.length
  refine (List.pairwise_map.mp h0).imp ?_
  intro a b h
  simp only [idxLe, decide_eq_true_eq]
  omega

end NER
